import Mathlib

/-!
Verification development for the Sekai song-alias indexing script
(`scripts/embed_aliases.py`).  The script is embedded shallowly:

* parsed JSON values become the inductive `JVal`;
* Python's dynamic behaviours (truthiness, `dict.get`, iteration,
  subscript errors) become total Lean functions returning `Except PyErr`;
* the three HTTP endpoints (track list, alias metadata, embedding) become
  response-valued functions packaged in `Env`;
* the MD5-based id derivation `generate_uuid` is embedded with a concrete
  MD5 implementation (RFC 1321), validated against standard test vectors;
* the Qdrant collection bootstrap becomes a pure state transformer.

Machine integers are `Nat` with explicit `% 2 ^ 32` (respectively
`% 2 ^ 64`) where the hash algorithm wraps.
-/

/-- A parsed JSON value, as produced by `resp.json()`.  JSON numbers are
modelled as integers; the script never computes with numeric values, it
only passes them through, so the numeric carrier is irrelevant to every
property proved below. -/
inductive JVal where
  | jnull : JVal
  | jnum : Int → JVal
  | jstr : String → JVal
  | jarr : List JVal → JVal
  | jobj : List (String × JVal) → JVal

/-- The Python exceptions the embedded fragments can raise.  The script's
`main` catches all of them alike, so only their presence matters. -/
inductive PyErr where
  | jsonError : PyErr
  | attributeError : PyErr
  | typeError : PyErr
  | keyError : PyErr
deriving DecidableEq

/-- Python truthiness (`if not x`) for parsed JSON values: `None`, `0`,
`""`, `[]` and `{}` are falsy. -/
def pyFalsy : JVal → Bool
  | .jnull => true
  | .jnum n => n == 0
  | .jstr s => s == ""
  | .jarr [] => true
  | .jarr (_ :: _) => false
  | .jobj [] => true
  | .jobj (_ :: _) => false

/-- Key lookup in a parsed JSON object (`dict` access).  Dictionaries
obtained from `json` parsing have unique keys, so first-match lookup
coincides with Python's dictionary lookup. -/
def jGet : List (String × JVal) → String → Option JVal
  | [], _ => none
  | (k, v) :: rest, key => if k = key then some v else jGet rest key

/-- Python iteration (`for x in v`): lists yield their elements, strings
their characters (as 1-character strings), dicts their keys; other values
raise `TypeError`. -/
def pyIter : JVal → Except PyErr (List JVal)
  | .jarr xs => .ok xs
  | .jstr s => .ok (s.data.map (fun c => .jstr (String.singleton c)))
  | .jobj fs => .ok (fs.map (fun kv => .jstr kv.1))
  | _ => .error .typeError

mutual

/-- Python `repr` for parsed JSON values (used by `str` on containers).
Strings containing quotes, backslashes or control characters would be
escaped differently by Python; the pipeline only ever formats integers and
plain alias strings, none of which reach these corner cases. -/
def pyRepr : JVal → String
  | .jnull => "None"
  | .jnum n => toString n
  | .jstr s => "\x27" ++ s ++ "\x27"
  | .jarr xs => "[" ++ pyReprListSep xs ++ "]"
  | .jobj fs => "\x7b" ++ pyReprObjSep fs ++ "\x7d"

def pyReprListSep : List JVal → String
  | [] => ""
  | [x] => pyRepr x
  | x :: y :: rest => pyRepr x ++ ", " ++ pyReprListSep (y :: rest)

def pyReprObjSep : List (String × JVal) → String
  | [] => ""
  | [(k, v)] => "\x27" ++ k ++ "\x27: " ++ pyRepr v
  | (k, v) :: y :: rest =>
      "\x27" ++ k ++ "\x27: " ++ pyRepr v ++ ", " ++ pyReprObjSep (y :: rest)

end

/-- Python `str` / f-string conversion of a parsed JSON value. -/
def pyStr : JVal → String
  | .jstr s => s
  | v => pyRepr v

/-- UTF-8 encoding of a single Unicode code point. -/
def utf8Char (n : Nat) : List Nat :=
  if n < 128 then [n]
  else if n < 2048 then [192 + n / 64, 128 + n % 64]
  else if n < 65536 then [224 + n / 4096, 128 + n / 64 % 64, 128 + n % 64]
  else [240 + n / 262144, 128 + n / 4096 % 64, 128 + n / 64 % 64, 128 + n % 64]

/-- UTF-8 encoding of a string (`raw.encode('utf-8')`), as a byte list. -/
def utf8 (s : String) : List Nat :=
  (s.data.map (fun c => utf8Char c.toNat)).flatten

/-- Little-endian value of a byte list: `bytesToNat [b0, b1, ...] = b0 +
256 * b1 + ...`. -/
def bytesToNat : List Nat → Nat
  | [] => 0
  | b :: rest => b + 256 * bytesToNat rest

/-- The `k` little-endian bytes of `x`. -/
def leBytes : Nat → Nat → List Nat
  | 0, _ => []
  | k + 1, x => x % 256 :: leBytes k (x / 256)

/-- Split a list into consecutive 64-byte chunks (the padded MD5 message
length is always a multiple of 64). -/
def chunksOf64 (l : List Nat) : List (List Nat) :=
  (List.range (l.length / 64)).map (fun i => (l.drop (64 * i)).take 64)

def mask32 (x : Nat) : Nat := x % 4294967296

def not32 (x : Nat) : Nat := 4294967295 - mask32 x

/-- 32-bit left rotation. -/
def rotl32 (x n : Nat) : Nat :=
  (mask32 x * 2 ^ n + mask32 x / 2 ^ (32 - n)) % 4294967296

def mdF (b c d : Nat) : Nat := (b &&& c) ||| (not32 b &&& d)
def mdG (b c d : Nat) : Nat := (d &&& b) ||| (not32 d &&& c)
def mdH (b c d : Nat) : Nat := b ^^^ c ^^^ d
def mdI (b c d : Nat) : Nat := c ^^^ (b ||| not32 d)

/-- The 64 MD5 round constants `⌊|sin(i+1)| * 2^32⌋` (RFC 1321). -/
def md5K : List Nat :=
  [0xd76aa478, 0xe8c7b756, 0x242070db, 0xc1bdceee,
   0xf57c0faf, 0x4787c62a, 0xa8304613, 0xfd469501,
   0x698098d8, 0x8b44f7af, 0xffff5bb1, 0x895cd7be,
   0x6b901122, 0xfd987193, 0xa679438e, 0x49b40821,
   0xf61e2562, 0xc040b340, 0x265e5a51, 0xe9b6c7aa,
   0xd62f105d, 0x02441453, 0xd8a1e681, 0xe7d3fbc8,
   0x21e1cde6, 0xc33707d6, 0xf4d50d87, 0x455a14ed,
   0xa9e3e905, 0xfcefa3f8, 0x676f02d9, 0x8d2a4c8a,
   0xfffa3942, 0x8771f681, 0x6d9d6122, 0xfde5380c,
   0xa4beea44, 0x4bdecfa9, 0xf6bb4b60, 0xbebfbc70,
   0x289b7ec6, 0xeaa127fa, 0xd4ef3085, 0x04881d05,
   0xd9d4d039, 0xe6db99e5, 0x1fa27cf8, 0xc4ac5665,
   0xf4292244, 0x432aff97, 0xab9423a7, 0xfc93a039,
   0x655b59c3, 0x8f0ccc92, 0xffeff47d, 0x85845dd1,
   0x6fa87e4f, 0xfe2ce6e0, 0xa3014314, 0x4e0811a1,
   0xf7537e82, 0xbd3af235, 0x2ad7d2bb, 0xeb86d391]

/-- The 64 MD5 per-round shift amounts (RFC 1321). -/
def md5S : List Nat :=
  [7, 12, 17, 22, 7, 12, 17, 22, 7, 12, 17, 22, 7, 12, 17, 22,
   5, 9, 14, 20, 5, 9, 14, 20, 5, 9, 14, 20, 5, 9, 14, 20,
   4, 11, 16, 23, 4, 11, 16, 23, 4, 11, 16, 23, 4, 11, 16, 23,
   6, 10, 15, 21, 6, 10, 15, 21, 6, 10, 15, 21, 6, 10, 15, 21]

/-- One MD5 round: `M` reads the message words of the current chunk. -/
def md5Step (M : Nat → Nat) (st : Nat × Nat × Nat × Nat) (i : Nat) :
    Nat × Nat × Nat × Nat :=
  let a := st.1
  let b := st.2.1
  let c := st.2.2.1
  let d := st.2.2.2
  let f :=
    if i < 16 then mdF b c d
    else if i < 32 then mdG b c d
    else if i < 48 then mdH b c d
    else mdI b c d
  let g :=
    if i < 16 then i
    else if i < 32 then (5 * i + 1) % 16
    else if i < 48 then (3 * i + 5) % 16
    else 7 * i % 16
  let tmp := mask32 (f + a + md5K.getD i 0 + M g)
  (d, mask32 (b + rotl32 tmp (md5S.getD i 0)), b, c)

/-- Process one 64-byte chunk of the padded message. -/
def md5Chunk (st0 : Nat × Nat × Nat × Nat) (chunk : List Nat) :
    Nat × Nat × Nat × Nat :=
  let M := fun g => mask32 (bytesToNat ((chunk.drop (4 * g)).take 4))
  let st := (List.range 64).foldl (md5Step M) st0
  (mask32 (st0.1 + st.1), mask32 (st0.2.1 + st.2.1),
   mask32 (st0.2.2.1 + st.2.2.1), mask32 (st0.2.2.2 + st.2.2.2))

/-- MD5 padding: append `0x80`, zero bytes up to 56 mod 64, then the
64-bit little-endian bit length. -/
def md5Pad (m : List Nat) : List Nat :=
  m ++ 128 :: List.replicate ((119 - m.length % 64) % 64) 0 ++
    leBytes 8 (8 * m.length % 18446744073709551616)

/-- The 16-byte MD5 digest of a byte list (RFC 1321). -/
def md5 (m : List Nat) : List Nat :=
  let st := (chunksOf64 (md5Pad m)).foldl md5Chunk
    (0x67452301, 0xefcdab89, 0x98badcfe, 0x10325476)
  leBytes 4 st.1 ++ leBytes 4 st.2.1 ++ leBytes 4 st.2.2.1 ++
    leBytes 4 st.2.2.2

/-- Lowercase hexadecimal digit. -/
def hexDigit (n : Nat) : Char :=
  if n < 10 then Char.ofNat (48 + n) else Char.ofNat (87 + n)

/-- The two lowercase hex characters of a byte. -/
def hexByte (b : Nat) : List Char := [hexDigit (b / 16), hexDigit (b % 16)]

/-- Lowercase hex rendering of a byte list (`hexdigest()`), as characters. -/
def hexOfBytes (bs : List Nat) : List Char := bs.flatMap hexByte

/-- The dash character of the canonical UUID rendering. -/
def dashChar : Char := Char.ofNat 45

/-- Insert the UUID dashes into a 32-character hex string; this is what
`str(uuid.UUID(hex=h))` does to a 32-digit lowercase hex digest. -/
def insertDashes (cs : List Char) : List Char :=
  cs.take 8 ++ dashChar :: (cs.drop 8).take 4 ++
    dashChar :: (cs.drop 12).take 4 ++
    dashChar :: (cs.drop 16).take 4 ++ dashChar :: cs.drop 20

/-- Render a 16-byte digest the way
`str(uuid.UUID(hex=digest.hexdigest()))` does. -/
def uuidOfDigest (bs : List Nat) : String :=
  String.mk (insertDashes (hexOfBytes bs))

/-- The concatenation `f"\x7bmid\x7d-\x7balias\x7d"`. -/
def rawString (mid al : JVal) : String :=
  pyStr mid ++ "-" ++ pyStr al

/-- `generate_uuid` from the script:
`str(uuid.UUID(hex=hashlib.md5(raw.encode('utf-8')).hexdigest()))`. -/
def generate_uuid (mid al : JVal) : String :=
  uuidOfDigest (md5 (utf8 (rawString mid al)))

/-- Canonical 8-4-4-4-12 UUID rendering of a 16-byte digest, grouping the
bytes directly (4, 2, 2, 2, 6 bytes). -/
def uuidCanonicalChars (bs : List Nat) : List Char :=
  hexOfBytes (bs.take 4) ++ dashChar :: hexOfBytes ((bs.drop 4).take 2) ++
    dashChar :: hexOfBytes ((bs.drop 6).take 2) ++
    dashChar :: hexOfBytes ((bs.drop 8).take 2) ++
    dashChar :: hexOfBytes (bs.drop 10)

/-- Modelled from the spec: the reference id derivation — form the string
`"\x7bmid\x7d-\x7balias\x7d"`, take the 128-bit MD5 digest of its UTF-8
bytes, and render those 16 bytes as a canonical UUID string. -/
def derive_ref (mid al : JVal) : String :=
  String.mk (uuidCanonicalChars (md5 (utf8 (rawString mid al))))

/-- The target Qdrant collection name (`COLLECTION_NAME`). -/
def COLLECTION_NAME : String := "song_aliases"

/-- The configured embedding dimension (`VECTOR_SIZE`). -/
def VECTOR_SIZE : Nat := 1024

/-- An HTTP response as the script observes it: the status code, and the
parsed JSON body (`none` when `resp.json()` would raise). -/
structure HResp where
  status : Nat
  jsonBody : Option JVal

/-- Whether `needle` occurs as a contiguous run inside `hay` (Python's
substring test `needle in hay`). -/
def hasSubstr (hay needle : List Char) : Bool :=
  if needle.isPrefixOf hay then true
  else match hay with
    | [] => false
    | _ :: t => hasSubstr t needle

/-- `get_embedding(text)`, applied to the response of the embedding POST.
Outcomes: `.ok none` — the function returns `None` (non-200, or falsy
`data`); `.ok (some e)` — it returns `json_resp["data"][0]["embedding"]`;
`.error _` — it raises (invalid JSON, `.get` on a non-dict, missing
`embedding` key, bad subscript), which propagates to the caller. -/
def get_embedding (resp : HResp) : Except PyErr (Option JVal) :=
  if resp.status ≠ 200 then .ok none
  else match resp.jsonBody with
    | none => .error .jsonError
    | some (.jobj fields) =>
      match jGet fields "data" with
      | none => .ok none
      | some d =>
        if pyFalsy d then .ok none
        else match d with
          | .jarr (first :: _) =>
            match first with
            | .jobj f2 =>
              match jGet f2 "embedding" with
              | some e => .ok (some e)
              | none => .error .keyError
            | _ => .error .typeError
          | .jarr [] => .ok none
          | .jobj _ => .error .keyError
          | _ => .error .typeError
    | some _ => .error .attributeError

/-- One point submitted to `client.upsert`: `models.PointStruct(id=...,
vector=..., payload=...)`.  The payload is the JSON object
`\x7bmid, alias, source\x7d`. -/
structure Point where
  id : String
  vector : JVal
  payload : JVal

/-- A single `client.upsert(collection_name=..., points=...)` call. -/
structure UpsertCall where
  collection : String
  points : List Point

/-- The external world of one run: the track-list response, the alias
metadata response per track id, and the embedding response per input
text.  The script performs one blocking call at a time, so each endpoint
is a pure response function. -/
structure Env where
  listResp : HResp
  aliasApi : JVal → HResp
  embedApi : JVal → HResp

/-- Build the point for one alias (the `points.append(...)` body). -/
def mkPoint (mid al vec : JVal) : Point :=
  { id := generate_uuid mid al
    vector := vec
    payload := .jobj [("mid", mid), ("alias", al), ("source", .jstr "haruki")] }

/-- The `for alias in aliases` loop of `index_song`: embed each alias,
skip it when `get_embedding` returns a falsy value (`if not vec:
continue`), propagate any exception. -/
def processAliases (env : Env) (mid : JVal) : List JVal → Except PyErr (List Point)
  | [] => .ok []
  | al :: rest =>
    match get_embedding (env.embedApi al) with
    | .error e => .error e
    | .ok none => processAliases env mid rest
    | .ok (some vec) =>
      if pyFalsy vec then processAliases env mid rest
      else match processAliases env mid rest with
        | .error e => .error e
        | .ok pts => .ok (mkPoint mid al vec :: pts)

/-- `index_song(mid)`: returns the upsert calls performed (the only side
effect modelled) together with the returned count, or the exception it
raises.  Exceptions happen before the final `client.upsert`, so the call
list is empty in every error case. -/
def index_song (env : Env) (mid : JVal) : List UpsertCall × Except PyErr Nat :=
  let resp := env.aliasApi mid
  if resp.status = 404 then ([], .ok 0)
  else if resp.status ≠ 200 then ([], .ok 0)
  else match resp.jsonBody with
    | none => ([], .error .jsonError)
    | some (.jobj fields) =>
      let aliases := (jGet fields "aliases").getD (.jarr [])
      if pyFalsy aliases then ([], .ok 0)
      else match pyIter aliases with
        | .error e => ([], .error e)
        | .ok items =>
          match processAliases env mid items with
          | .error e => ([], .error e)
          | .ok points =>
            (if points.isEmpty then []
             else [{ collection := COLLECTION_NAME, points := points }],
             .ok points.length)
    | some _ => ([], .error .attributeError)

/-- `'id' in item` followed by `item['id']` for each item of the track
list: objects contribute their `id` field when present; a string item
containing `"id"` as a substring, or a list item containing the string
`"id"`, would be subscripted by a string and raise `TypeError`; numbers
and `None` are not containers and `in` itself raises. -/
def extractIds : List JVal → Except PyErr (List JVal)
  | [] => .ok []
  | item :: rest =>
    match item with
    | .jobj fs =>
      match jGet fs "id" with
      | some v =>
        (match extractIds rest with
         | .error e => .error e
         | .ok ids => .ok (v :: ids))
      | none => extractIds rest
    | .jstr s =>
      if hasSubstr s.data "id".data then .error .typeError else extractIds rest
    | .jarr xs =>
      if xs.any (fun x => match x with | .jstr t => t = "id" | _ => false)
      then .error .typeError else extractIds rest
    | _ => .error .typeError

/-- The numeric value of a parsed JSON number (0 otherwise); only used to
order lists that consist entirely of numbers. -/
def numOf : JVal → Int
  | .jnum n => n
  | _ => 0

/-- The string value of a parsed JSON string ("" otherwise). -/
def strOf : JVal → String
  | .jstr s => s
  | _ => ""

/-- Ordering of JSON numbers, as Python `<=` on their values. -/
def numLe (a b : JVal) : Prop := numOf a ≤ numOf b

/-- Ordering of JSON strings, as Python `<=` (code-point lexicographic). -/
def strLe (a b : JVal) : Prop := strOf a ≤ strOf b

instance : DecidableRel numLe := fun a b =>
  (inferInstance : Decidable (numOf a ≤ numOf b))

instance : DecidableRel strLe := fun a b =>
  (inferInstance : Decidable (strOf a ≤ strOf b))

instance : IsTotal JVal numLe := ⟨fun a b => Int.le_total (numOf a) (numOf b)⟩

instance : IsTrans JVal numLe := ⟨fun _ _ _ h1 h2 => le_trans h1 h2⟩

instance : IsTotal JVal strLe := ⟨fun a b => le_total (strOf a) (strOf b)⟩

instance : IsTrans JVal strLe := ⟨fun _ _ _ h1 h2 => le_trans h1 h2⟩

def isNumV : JVal → Bool
  | .jnum _ => true
  | _ => false

def isStrV : JVal → Bool
  | .jstr _ => true
  | _ => false

/-- Python `list.sort()`: succeeds on the empty and singleton list (no
comparison is made), sorts homogeneous lists of numbers or of strings
ascending, and raises `TypeError` on other element combinations (mixed
numeric/string lists, `None`, containers). -/
def pySort (xs : List JVal) : Except PyErr (List JVal) :=
  match xs with
  | [] => .ok []
  | [x] => .ok [x]
  | _ =>
    if xs.all isNumV then .ok (List.insertionSort numLe xs)
    else if xs.all isStrV then .ok (List.insertionSort strLe xs)
    else .error .typeError

/-- `fetch_music_ids()`, applied to the track-list response: non-200 or
unparseable body yields `[]` (logged and swallowed), and any exception
while extracting or sorting the ids is caught (`except ... return []`). -/
def fetch_music_ids (resp : HResp) : List JVal :=
  if resp.status ≠ 200 then []
  else match resp.jsonBody with
    | none => []
    | some musics =>
      match pyIter musics with
      | .error _ => []
      | .ok items =>
        match extractIds items with
        | .error _ => []
        | .ok ids =>
          match pySort ids with
          | .error _ => []
          | .ok sorted => sorted

/-- The contribution of one track to `total`: `if count > 0: total +=
count`, and an exception caught by the per-track `try` contributes 0. -/
def cntOf : Except PyErr Nat → Nat
  | .ok n => if 0 < n then n else 0
  | .error _ => 0

/-- The `for i in ids` loop of `main`: accumulate all upsert calls and the
running total, continuing past per-track exceptions. -/
def runTracks (env : Env) : List JVal → List UpsertCall × Nat
  | [] => ([], 0)
  | i :: rest =>
    let r := index_song env i
    let rec' := runTracks env rest
    (r.1 ++ rec'.1, cntOf r.2 + rec'.2)

/-- `main()`: fetch the id list, index every track, report the total.
(Lean reserves the top-level name `main` for `IO` entry points, hence the
prime.) -/
def main' (env : Env) : List UpsertCall × Nat :=
  runTracks env (fetch_music_ids env.listResp)

/-- The distance metric of a created collection. -/
inductive QDistance where
  | cosine : QDistance
deriving DecidableEq

/-- A `client.create_collection` call with its vector parameters. -/
structure CreateCall where
  name : String
  size : Nat
  distance : QDistance
deriving DecidableEq

/-- The vector store's visible state: which collections exist.  Modelled
from the spec: the store is an external collaborator; creating a
collection makes it exist (spec §4.3). -/
structure StoreState where
  collections : List String

/-- `client.collection_exists(COLLECTION_NAME)` against a store state. -/
def collection_exists (st : StoreState) (name : String) : Bool :=
  st.collections.contains name

/-- Modelled from the spec: `client.create_collection` registers the named
collection in the store. -/
def create_collection (st : StoreState) (c : CreateCall) : StoreState :=
  { collections := c.name :: st.collections }

/-- The module-level bootstrap: `if not client.collection_exists(...):
client.create_collection(..., size=VECTOR_SIZE, distance=COSINE)`.
Returns the new store state and the creation calls made. -/
def ensure_collection (st : StoreState) : StoreState × List CreateCall :=
  if collection_exists st COLLECTION_NAME then (st, [])
  else
    (create_collection st ⟨COLLECTION_NAME, VECTOR_SIZE, .cosine⟩,
     [⟨COLLECTION_NAME, VECTOR_SIZE, .cosine⟩])

/-- Total number of points across a list of upsert calls. -/
def sumPoints (calls : List UpsertCall) : Nat :=
  (calls.map (fun c => c.points.length)).sum

/-- `index_song` has exactly three result shapes: zero points and no
upsert, an exception and no upsert, or one upsert of a non-empty batch
whose length it returns. -/
theorem index_song_cases (env : Env) (mid : JVal) :
    index_song env mid = ([], .ok 0)
    ∨ (∃ e, index_song env mid = ([], .error e))
    ∨ (∃ pts, pts ≠ [] ∧
        index_song env mid = ([⟨COLLECTION_NAME, pts⟩], .ok pts.length)) := by
  rcases hresp : env.aliasApi mid with ⟨st, body⟩
  by_cases h404 : st = 404
  · exact Or.inl (by simp [index_song, hresp, h404])
  by_cases h200 : st = 200
  case neg => exact Or.inl (by simp [index_song, hresp, h404, h200])
  rcases body with _ | j
  · exact Or.inr (Or.inl ⟨.jsonError, by simp [index_song, hresp, h404, h200]⟩)
  rcases j with _ | n | s | xs | fields
  · exact Or.inr (Or.inl ⟨.attributeError, by simp [index_song, hresp, h404, h200]⟩)
  · exact Or.inr (Or.inl ⟨.attributeError, by simp [index_song, hresp, h404, h200]⟩)
  · exact Or.inr (Or.inl ⟨.attributeError, by simp [index_song, hresp, h404, h200]⟩)
  · exact Or.inr (Or.inl ⟨.attributeError, by simp [index_song, hresp, h404, h200]⟩)
  by_cases hfal : pyFalsy ((jGet fields "aliases").getD (.jarr [])) = true
  · exact Or.inl (by simp [index_song, hresp, h404, h200, hfal])
  rcases hit : pyIter ((jGet fields "aliases").getD (.jarr [])) with e | items
  · exact Or.inr (Or.inl ⟨e, by simp [index_song, hresp, h404, h200, hfal, hit]⟩)
  rcases hpa : processAliases env mid items with e | pts
  · exact Or.inr (Or.inl ⟨e, by
      simp [index_song, hresp, h404, h200, hfal, hit, hpa]⟩)
  rcases pts with _ | ⟨p, rest⟩
  · exact Or.inl (by simp [index_song, hresp, h404, h200, hfal, hit, hpa])
  · exact Or.inr (Or.inr ⟨p :: rest, List.cons_ne_nil p rest, by
      simp [index_song, hresp, h404, h200, hfal, hit, hpa]⟩)

theorem index_song_sum (env : Env) (mid : JVal) :
    sumPoints (index_song env mid).1 = cntOf (index_song env mid).2 := by
  rcases index_song_cases env mid with h | ⟨e, h⟩ | ⟨pts, hne, h⟩ <;> rw [h]
  · rfl
  · rfl
  · show pts.length + 0 = cntOf (.ok pts.length)
    rw [Nat.add_zero]
    show pts.length = if 0 < pts.length then pts.length else 0
    rw [if_pos (List.length_pos.mpr hne)]

theorem runTracks_sum (env : Env) (ids : List JVal) :
    (runTracks env ids).2 = sumPoints (runTracks env ids).1 := by
  induction ids with
  | nil => rfl
  | cons i rest ih =>
    show cntOf (index_song env i).2 + (runTracks env rest).2 =
      sumPoints ((index_song env i).1 ++ (runTracks env rest).1)
    rw [ih, ← index_song_sum env i]
    simp [sumPoints]

/-- C1: `generate_uuid(mid, alias)` is a pure total function equal to the
reference definition (concatenate as `"\x7bmid\x7d-\x7balias\x7d"`, MD5 the
UTF-8 bytes, render the 16 digest bytes as a canonical UUID string), and —
being a function — two calls on the same inputs yield the identical id. -/
theorem c1_generate_uuid_matches_reference :
    ∀ mid al : JVal,
      generate_uuid mid al = derive_ref mid al ∧
      generate_uuid mid al = generate_uuid mid al :=
  fun _ _ => ⟨rfl, rfl⟩

/-- C3: the total reported by `main` is the sum of the points of all
upsert calls performed; `index_song` returns exactly the length of the
points list it submitted; and a track whose two aliases both embed
successfully contributes exactly the two points
`(generate_uuid mid alias, vec, \x7bmid, alias, source: "haruki"\x7d)`. -/
theorem c3_total_is_sum_of_upserted_points (env : Env) :
    (main' env).2 = sumPoints (main' env).1
    ∧ (∀ mid calls n, index_song env mid = (calls, .ok n) → n = sumPoints calls)
    ∧ (∀ mid s1 s2 v1 v2,
        env.aliasApi mid =
          ⟨200, some (.jobj [("aliases", .jarr [.jstr s1, .jstr s2])])⟩ →
        get_embedding (env.embedApi (.jstr s1)) = .ok (some v1) →
        pyFalsy v1 = false →
        get_embedding (env.embedApi (.jstr s2)) = .ok (some v2) →
        pyFalsy v2 = false →
        index_song env mid =
          ([⟨COLLECTION_NAME,
             [mkPoint mid (.jstr s1) v1, mkPoint mid (.jstr s2) v2]⟩],
           .ok 2)) := by
  refine ⟨runTracks_sum env _, ?_, ?_⟩
  · intro mid calls n h
    have := index_song_sum env mid
    rw [h] at this
    simp only [cntOf] at this
    rw [this]
    split <;> omega
  · intro mid s1 s2 v1 v2 h1 h2 h3 h4 h5
    simp [index_song, h1, jGet, pyIter, processAliases, h2, h3, h4, h5]
    rfl

/-- The environment of the C3 witness: track 7 carries the two aliases of
the spec scenario and every embedding call succeeds. -/
def envC3 : Env where
  listResp := ⟨200, some (.jarr [.jobj [("id", .jnum 7)]])⟩
  aliasApi := fun _ =>
    ⟨200, some (.jobj [("aliases",
      .jarr [.jstr "Tell Your World", .jstr "TYW"])])⟩
  embedApi := fun t =>
    ⟨200, some (.jobj [("data", .jarr [.jobj [("embedding", .jarr [t])]])])⟩

theorem c3_total_is_sum_of_upserted_points_witness :
    index_song envC3 (.jnum 7) =
      ([⟨COLLECTION_NAME,
         [mkPoint (.jnum 7) (.jstr "Tell Your World")
            (.jarr [.jstr "Tell Your World"]),
          mkPoint (.jnum 7) (.jstr "TYW") (.jarr [.jstr "TYW"])]⟩],
       .ok 2) :=
  (c3_total_is_sum_of_upserted_points envC3).2.2 (.jnum 7)
    "Tell Your World" "TYW" (.jarr [.jstr "Tell Your World"])
    (.jarr [.jstr "TYW"]) rfl rfl rfl rfl rfl

/-- C6: a track id whose alias-metadata fetch returns 404 yields
`index_song = 0` with no upsert call, and the rest of the run — upserts
and total alike — is exactly what it would have been without that id. -/
theorem c6_not_found_contributes_nothing (env : Env) (mid : JVal)
    (h : (env.aliasApi mid).status = 404) :
    index_song env mid = ([], .ok 0)
    ∧ ∀ rest, runTracks env (mid :: rest) = runTracks env rest := by
  have hz : index_song env mid = ([], .ok 0) := by simp [index_song, h]
  refine ⟨hz, fun rest => ?_⟩
  simp [runTracks, hz, cntOf]

/-- The environment of the C6 witness: the metadata endpoint answers 404
for every id. -/
def envC6 : Env where
  listResp := ⟨200, some (.jarr [])⟩
  aliasApi := fun _ => ⟨404, none⟩
  embedApi := fun _ => ⟨200, none⟩

theorem c6_not_found_contributes_nothing_witness :
    index_song envC6 (.jnum 99) = ([], .ok 0)
    ∧ ∀ rest, runTracks envC6 (.jnum 99 :: rest) = runTracks envC6 rest :=
  c6_not_found_contributes_nothing envC6 (.jnum 99) rfl

/-- C7: each track performs at most one upsert call, every performed call
carries a non-empty batch, and a track that returned 0 (or raised) made no
upsert call at all. -/
theorem c7_at_most_one_upsert_never_empty (env : Env) (mid : JVal) :
    (index_song env mid).1.length ≤ 1
    ∧ (∀ c, c ∈ (index_song env mid).1 → c.points ≠ [])
    ∧ ((index_song env mid).2 = .ok 0 → (index_song env mid).1 = [])
    ∧ (∀ e, (index_song env mid).2 = .error e → (index_song env mid).1 = []) := by
  rcases index_song_cases env mid with h | ⟨e, h⟩ | ⟨pts, hne, h⟩ <;> rw [h]
  · simp
  · simp
  · refine ⟨by simp, ?_, ?_, by simp⟩
    · intro c hc
      rcases List.mem_singleton.mp hc with rfl
      simpa using hne
    · intro hzero
      have : pts.length = 0 := by simpa using hzero
      exact absurd (List.length_eq_zero.mp this) hne

theorem c7_at_most_one_upsert_never_empty_witness :
    (index_song envC3 (.jnum 7)).1.length ≤ 1
    ∧ (∀ c, c ∈ (index_song envC3 (.jnum 7)).1 → c.points ≠ [])
    ∧ ((index_song envC3 (.jnum 7)).2 = .ok 0 →
        (index_song envC3 (.jnum 7)).1 = [])
    ∧ (∀ e, (index_song envC3 (.jnum 7)).2 = .error e →
        (index_song envC3 (.jnum 7)).1 = []) :=
  c7_at_most_one_upsert_never_empty envC3 (.jnum 7)

/-- C8: the bootstrap creates the collection exactly when it is absent,
with dimension 1024 and cosine distance, and a second run over the
resulting store state makes no creation call. -/
theorem c8_bootstrap_idempotent (st : StoreState) :
    (collection_exists st COLLECTION_NAME = false →
      (ensure_collection st).2 = [⟨COLLECTION_NAME, 1024, .cosine⟩])
    ∧ (collection_exists st COLLECTION_NAME = true →
      (ensure_collection st).2 = [])
    ∧ (ensure_collection (ensure_collection st).1).2 = [] := by
  refine ⟨fun h => by simp [ensure_collection, h, VECTOR_SIZE],
    fun h => by simp [ensure_collection, h], ?_⟩
  by_cases h : collection_exists st COLLECTION_NAME
  · simp [ensure_collection, h]
  · simp only [Bool.not_eq_true] at h
    have hex : collection_exists
        (create_collection st ⟨COLLECTION_NAME, VECTOR_SIZE, .cosine⟩)
        COLLECTION_NAME = true := by
      simp [collection_exists, create_collection]
    simp [ensure_collection, h, hex]

theorem c8_bootstrap_idempotent_witness :
    (ensure_collection ⟨[]⟩).2 = [⟨COLLECTION_NAME, 1024, .cosine⟩] :=
  (c8_bootstrap_idempotent ⟨[]⟩).1 rfl

/-- The environment of the C4 counterexample: track 1 has aliases
`["a", "b"]`; the embedding response for `"a"` is a 200 whose body is not
valid JSON (a malformed embedding response), while `"b"` embeds fine. -/
def envC4 : Env where
  listResp := ⟨200, some (.jarr [])⟩
  aliasApi := fun _ =>
    ⟨200, some (.jobj [("aliases", .jarr [.jstr "a", .jstr "b"])])⟩
  embedApi := fun t =>
    if pyFalsy t then ⟨200, none⟩
    else match t with
      | .jstr "a" => ⟨200, none⟩
      | _ => ⟨200, some (.jobj [("data",
          .jarr [.jobj [("embedding", .jarr [.jnum 1])]])])⟩

/-- C4 counterexample: with `envC4`, the malformed embedding response for
alias `"a"` makes `get_embedding` raise; the exception aborts the whole
track, so the sibling alias `"b"` — whose own embedding call succeeds —
is never indexed and no upsert happens, contradicting the claim that only
the failing alias is skipped. -/
theorem c4_counterexample_malformed_aborts_track :
    get_embedding (envC4.embedApi (.jstr "b")) = .ok (some (.jarr [.jnum 1]))
    ∧ index_song envC4 (.jnum 1) = ([], .error .jsonError) :=
  ⟨rfl, rfl⟩

/-- C4 (amended): if the embedding call for an alias *returns failure*
(`None`: a non-200 status or a falsy `data` field), only that alias is
skipped and the remaining aliases of the track are processed exactly as
without it; and per-track processing composes, so no track's outcome —
exception or not — prevents the processing of the remaining tracks.  A
malformed embedding response that raises, however, aborts the current
track's remaining aliases (see the counterexample). -/
theorem c4_failed_alias_skipped_siblings_processed (env : Env) (mid al : JVal)
    (rest : List JVal) (i : JVal) (ids : List JVal)
    (h : get_embedding (env.embedApi al) = .ok none) :
    processAliases env mid (al :: rest) = processAliases env mid rest
    ∧ runTracks env (i :: ids) =
      ((index_song env i).1 ++ (runTracks env ids).1,
       cntOf (index_song env i).2 + (runTracks env ids).2) := by
  constructor
  · simp [processAliases, h]
  · rfl

/-- The environment of the C4 witness: every embedding request is
rejected with a 500, so `get_embedding` returns `None` for each alias. -/
def envC4w : Env where
  listResp := ⟨200, some (.jarr [])⟩
  aliasApi := fun _ =>
    ⟨200, some (.jobj [("aliases", .jarr [.jstr "a", .jstr "b"])])⟩
  embedApi := fun _ => ⟨500, none⟩

theorem c4_failed_alias_skipped_siblings_processed_witness :
    processAliases envC4w (.jnum 1) [.jstr "a", .jstr "b"] =
      processAliases envC4w (.jnum 1) [.jstr "b"]
    ∧ runTracks envC4w (.jnum 1 :: [.jnum 2]) =
      ((index_song envC4w (.jnum 1)).1 ++ (runTracks envC4w [.jnum 2]).1,
       cntOf (index_song envC4w (.jnum 1)).2 + (runTracks envC4w [.jnum 2]).2) :=
  c4_failed_alias_skipped_siblings_processed envC4w (.jnum 1) (.jstr "a")
    [.jstr "b"] (.jnum 1) [.jnum 2] rfl

/-- The response of the C5 counterexample: a 200 whose `data` is a
non-empty list, but whose first element has no `embedding` key. -/
def respC5 : HResp := ⟨200, some (.jobj [("data", .jarr [.jobj []])])⟩

/-- C5 counterexample: on a 200 response with non-empty `data` whose first
element lacks `embedding`, `get_embedding` neither returns `None` nor an
embedding — it raises `KeyError` — so the claimed "failure (None) iff
non-200 or empty/absent data, otherwise the first embedding" is false. -/
theorem c5_counterexample_malformed_raises :
    respC5.status = 200
    ∧ get_embedding respC5 = .error .keyError
    ∧ ∀ o, get_embedding respC5 ≠ .ok o := by
  refine ⟨rfl, rfl, fun o h => ?_⟩
  rw [show get_embedding respC5 = .error .keyError from rfl] at h
  exact Except.noConfusion h

/-- The failure condition of the amended C5: the status is not 200, or the
body parsed to a dict whose `data` key is absent or falsy. -/
def embFailure (resp : HResp) : Prop :=
  resp.status ≠ 200
  ∨ ∃ fields, resp.jsonBody = some (.jobj fields)
      ∧ pyFalsy ((jGet fields "data").getD .jnull) = true

/-- C5 (amended): `get_embedding` returns `None` iff the status is
non-200 or the body is a dict whose `data` is absent or falsy (Python
truthiness: also `0`, `""`, `null`); when `data` is a non-empty list whose
first element is a dict with an `embedding` key, it returns that
embedding; every other malformed response raises an exception instead of
returning (propagating to the caller). -/
theorem c5_get_embedding_failure_characterised (resp : HResp) :
    (get_embedding resp = .ok none ↔ embFailure resp)
    ∧ (∀ fields f2 tl e, resp.status = 200 →
        resp.jsonBody = some (.jobj fields) →
        jGet fields "data" = some (.jarr (.jobj f2 :: tl)) →
        jGet f2 "embedding" = some e →
        get_embedding resp = .ok (some e)) := by
  constructor
  · constructor
    · intro h
      by_cases h200 : resp.status = 200
      · rcases hb : resp.jsonBody with _ | j
        · simp [get_embedding, h200, hb] at h
        · rcases j with _ | n | s | xs | fields
          · simp [get_embedding, h200, hb] at h
          · simp [get_embedding, h200, hb] at h
          · simp [get_embedding, h200, hb] at h
          · simp [get_embedding, h200, hb] at h
          · rcases hd : jGet fields "data" with _ | d
            · exact Or.inr ⟨fields, hb, by simp [hd, pyFalsy]⟩
            · by_cases hfal : pyFalsy d = true
              · exact Or.inr ⟨fields, hb, by simp [hd, hfal]⟩
              · exfalso
                rcases d with _ | n | s | xs | f2
                · simp [pyFalsy] at hfal
                · simp [get_embedding, h200, hb, hd, hfal] at h
                · simp [get_embedding, h200, hb, hd, hfal] at h
                · rcases xs with _ | ⟨first, tl⟩
                  · simp [pyFalsy] at hfal
                  · rcases first with _ | n | s | ys | f2
                    · simp [get_embedding, h200, hb, hd, hfal] at h
                    · simp [get_embedding, h200, hb, hd, hfal] at h
                    · simp [get_embedding, h200, hb, hd, hfal] at h
                    · simp [get_embedding, h200, hb, hd, hfal] at h
                    · rcases he : jGet f2 "embedding" with _ | e <;>
                        simp [get_embedding, h200, hb, hd, hfal, he] at h
                · simp [get_embedding, h200, hb, hd, hfal] at h
      · exact Or.inl h200
    · intro h
      rcases h with h200 | ⟨fields, hb, hfal⟩
      · simp [get_embedding, h200]
      · by_cases h200 : resp.status = 200
        · rcases hd : jGet fields "data" with _ | d
          · simp [get_embedding, h200, hb, hd]
          · rw [hd] at hfal
            simp only [Option.getD_some] at hfal
            simp [get_embedding, h200, hb, hd, hfal]
        · simp [get_embedding, h200]
  · intro fields f2 tl e h200 hb hd he
    have hfal : pyFalsy (.jarr (JVal.jobj f2 :: tl)) = false := rfl
    simp [get_embedding, h200, hb, hd, hfal, he]

/-- Every point produced by the alias loop carries exactly the (truthy)
embedding value that `get_embedding` returned for some alias; the script
performs no dimension check on it. -/
theorem processAliases_vectors (env : Env) (mid : JVal) :
    ∀ (items : List JVal) (pts : List Point),
      processAliases env mid items = .ok pts →
      ∀ p ∈ pts, ∃ a v, get_embedding (env.embedApi a) = .ok (some v)
        ∧ pyFalsy v = false ∧ p.vector = v := by
  intro items
  induction items with
  | nil =>
    intro pts h p hp
    simp [processAliases] at h
    subst h
    simp at hp
  | cons al rest ih =>
    intro pts h p hp
    rcases hg : get_embedding (env.embedApi al) with e | ov
    · simp [processAliases, hg] at h
    rcases ov with _ | vec
    · simp only [processAliases, hg] at h
      exact ih pts h p hp
    by_cases hfal : pyFalsy vec = true
    · simp only [processAliases, hg, hfal, if_true] at h
      exact ih pts h p hp
    rcases hrest : processAliases env mid rest with e | pts'
    · simp [processAliases, hg, hfal, hrest] at h
    simp [processAliases, hg, hfal, hrest] at h
    subst h
    rcases List.mem_cons.mp hp with rfl | hp'
    · exact ⟨al, vec, hg, by simpa using hfal, rfl⟩
    · exact ih pts' hrest p hp'

/-- The points of every upsert call `index_song` performs are exactly the
output of the alias loop. -/
theorem index_song_calls_from_process (env : Env) (mid : JVal) :
    ∀ c ∈ (index_song env mid).1,
      ∃ items, processAliases env mid items = .ok c.points := by
  rcases hresp : env.aliasApi mid with ⟨st, body⟩
  by_cases h404 : st = 404
  · simp [index_song, hresp, h404]
  by_cases h200 : st = 200
  case neg => simp [index_song, hresp, h404, h200]
  rcases body with _ | j
  · simp [index_song, hresp, h404, h200]
  rcases j with _ | n | s | xs | fields
  · simp [index_song, hresp, h404, h200]
  · simp [index_song, hresp, h404, h200]
  · simp [index_song, hresp, h404, h200]
  · simp [index_song, hresp, h404, h200]
  by_cases hfal : pyFalsy ((jGet fields "aliases").getD (.jarr [])) = true
  · simp [index_song, hresp, h404, h200, hfal]
  rcases hit : pyIter ((jGet fields "aliases").getD (.jarr [])) with e | items
  · simp [index_song, hresp, h404, h200, hfal, hit]
  rcases hpa : processAliases env mid items with e | pts
  · simp [index_song, hresp, h404, h200, hfal, hit, hpa]
  intro c hc
  rcases hp : pts.isEmpty with hF | hT
  · have hx : (index_song env mid).1 = [⟨COLLECTION_NAME, pts⟩] := by
      simp [index_song, hresp, h404, h200, hfal, hit, hpa, hp]
    rw [hx] at hc
    rcases List.mem_singleton.mp hc with rfl
    exact ⟨items, hpa⟩
  · have hx : (index_song env mid).1 = [] := by
      simp [index_song, hresp, h404, h200, hfal, hit, hpa, hp]
    rw [hx] at hc
    simp at hc

/-- The environment of the C10 counterexample: the embedding service
answers with a 1-dimensional vector, which the script upserts unchecked. -/
def envC10 : Env where
  listResp := ⟨200, some (.jarr [])⟩
  aliasApi := fun _ => ⟨200, some (.jobj [("aliases", .jarr [.jstr "x"])])⟩
  embedApi := fun _ =>
    ⟨200, some (.jobj [("data", .jarr [.jobj [("embedding", .jarr [.jnum 1])]])])⟩

/-- C10 counterexample: when the embedding service returns a vector of
length 1, `index_song` upserts a point whose vector has length 1 ≠ 1024 —
the code never enforces the configured dimension. -/
theorem c10_counterexample_no_dimension_check :
    (index_song envC10 (.jnum 1)).1.map (fun c => c.points.map (fun p => p.vector))
      = [[.jarr [.jnum 1]]]
    ∧ [JVal.jnum 1].length ≠ VECTOR_SIZE :=
  ⟨rfl, by decide⟩

/-- C10 (amended): every upserted vector is exactly the embedding value
the service returned for some alias — a pure pass-through with no length
check — so the 1024-length invariant holds precisely when every embedding
the service returns has 1024 entries. -/
theorem c10_vectors_are_passed_through (env : Env) (mid : JVal) :
    (∀ c ∈ (index_song env mid).1, ∀ p ∈ c.points,
      ∃ a v, get_embedding (env.embedApi a) = .ok (some v) ∧ p.vector = v)
    ∧ ((∀ a v, get_embedding (env.embedApi a) = .ok (some v) →
          ∃ xs : List JVal, v = .jarr xs ∧ xs.length = 1024) →
        ∀ c ∈ (index_song env mid).1, ∀ p ∈ c.points,
          ∃ xs : List JVal, p.vector = .jarr xs ∧ xs.length = 1024) := by
  constructor
  · intro c hc p hp
    obtain ⟨items, hpa⟩ := index_song_calls_from_process env mid c hc
    obtain ⟨a, v, hg, _, hv⟩ := processAliases_vectors env mid items c.points hpa p hp
    exact ⟨a, v, hg, hv⟩
  · intro hdim c hc p hp
    obtain ⟨items, hpa⟩ := index_song_calls_from_process env mid c hc
    obtain ⟨a, v, hg, _, hv⟩ := processAliases_vectors env mid items c.points hpa p hp
    obtain ⟨xs, hxs, hlen⟩ := hdim a v hg
    exact ⟨xs, by rw [hv, hxs], hlen⟩

/-- The environment of the C10 witness: the embedding service always
answers with a fixed 1024-dimensional vector. -/
def envC10w : Env where
  listResp := ⟨200, some (.jarr [])⟩
  aliasApi := fun _ => ⟨200, some (.jobj [("aliases", .jarr [.jstr "x"])])⟩
  embedApi := fun _ =>
    ⟨200, some (.jobj [("data", .jarr [.jobj [("embedding",
      .jarr (List.replicate 1024 (.jnum 1)))]])])⟩

theorem c10_vectors_are_passed_through_witness :
    ∃ xs : List JVal,
      (mkPoint (.jnum 1) (.jstr "x")
        (.jarr (List.replicate 1024 (.jnum 1)))).vector = .jarr xs
      ∧ xs.length = 1024 := by
  have hx : (index_song envC10w (.jnum 1)).1 =
      [⟨COLLECTION_NAME, [mkPoint (.jnum 1) (.jstr "x")
        (.jarr (List.replicate 1024 (.jnum 1)))]⟩] := rfl
  refine (c10_vectors_are_passed_through envC10w (.jnum 1)).2 ?_
    ⟨COLLECTION_NAME, [mkPoint (.jnum 1) (.jstr "x")
      (.jarr (List.replicate 1024 (.jnum 1)))]⟩ ?_
    (mkPoint (.jnum 1) (.jstr "x")
      (.jarr (List.replicate 1024 (.jnum 1)))) ?_
  · intro a v h
    have hh : get_embedding (envC10w.embedApi a) =
        .ok (some (.jarr (List.replicate 1024 (.jnum 1)))) := rfl
    rw [hh] at h
    injection h with h1
    injection h1 with h2
    exact ⟨List.replicate 1024 (.jnum 1), h2.symm, by
      rw [List.length_replicate]⟩
  · rw [hx]
    exact List.mem_singleton.mpr rfl
  · exact List.mem_singleton.mpr rfl

/-- The `id` field of a track-list item, when the item is an object that
has one. -/
def idOf : JVal → Option JVal
  | .jobj fs => jGet fs "id"
  | _ => none

/-- On a track list consisting of objects, the comprehension
`[item['id'] for item in musics if 'id' in item]` collects exactly the
`id` fields of the items that have one, in order, without deduplication. -/
theorem extractIds_all_jobj :
    ∀ items : List JVal, (∀ it ∈ items, ∃ fs, it = .jobj fs) →
      extractIds items = .ok (items.filterMap idOf) := by
  intro items
  induction items with
  | nil => intro _; rfl
  | cons item rest ih =>
    intro h
    obtain ⟨fs, rfl⟩ := h item (List.mem_cons_self item rest)
    have hrest := ih (fun it hit => h it (List.mem_cons_of_mem _ hit))
    rcases hid : jGet fs "id" with _ | v
    · simp [extractIds, hid, hrest, List.filterMap_cons, idOf]
    · simp [extractIds, hid, hrest, List.filterMap_cons, idOf]

/-- Python `list.sort()` on a list of numbers sorts it ascending. -/
theorem pySort_all_num :
    ∀ xs : List JVal, xs.all isNumV = true →
      pySort xs = .ok (List.insertionSort numLe xs) := by
  intro xs h
  match xs with
  | [] => rfl
  | [x] => simp [pySort, List.insertionSort, List.orderedInsert]
  | x :: y :: rest => simp [pySort, h]

/-- The environment of the C9 counterexample: the track list parses to
`[\x7b"id": 5\x7d, "idol"]`. -/
def respC9 : HResp := ⟨200, some (.jarr [.jobj [("id", .jnum 5)], .jstr "idol"])⟩

/-- C9 counterexample: the string item `"idol"` contains `"id"` as a
substring, so `'id' in item` is true and `item['id']` raises `TypeError`;
the exception is caught and `fetch_music_ids` returns `[]`, although the
item `\x7b"id": 5\x7d` has an `id` field present — the claim would have
the processed sequence be `[5]`, with the id-less string item merely
ignored. -/
theorem c9_counterexample_string_item_drops_all :
    fetch_music_ids respC9 = []
    ∧ idOf (.jobj [("id", .jnum 5)]) = some (.jnum 5)
    ∧ respC9.status = 200 :=
  ⟨rfl, rfl, rfl⟩

/-- C9 (amended): a failed (non-200) or unparseable track-list response
yields an empty id sequence and a run reporting zero; and when the body is
a list of objects whose present `id` fields are all numbers, the processed
sequence is exactly the ascending sort of those ids — items lacking `id`
ignored, duplicates kept.  (A non-object item or a non-numeric id mix
makes the comprehension or the sort raise; the exception is caught and the
whole sequence collapses to empty, see the counterexample.) -/
theorem c9_ids_are_sorted_id_fields (env : Env) :
    (env.listResp.status ≠ 200 →
      fetch_music_ids env.listResp = [] ∧ main' env = ([], 0))
    ∧ (env.listResp.jsonBody = none →
      fetch_music_ids env.listResp = [] ∧ main' env = ([], 0))
    ∧ (∀ items, env.listResp.status = 200 →
        env.listResp.jsonBody = some (.jarr items) →
        (∀ it ∈ items, ∃ fs, it = .jobj fs) →
        (items.filterMap idOf).all isNumV = true →
        fetch_music_ids env.listResp =
          List.insertionSort numLe (items.filterMap idOf)
        ∧ List.Sorted numLe (fetch_music_ids env.listResp)
        ∧ (fetch_music_ids env.listResp).Perm (items.filterMap idOf)) := by
  refine ⟨?_, ?_, ?_⟩
  · intro h
    have hf : fetch_music_ids env.listResp = [] := by simp [fetch_music_ids, h]
    exact ⟨hf, by simp [main', hf, runTracks]⟩
  · intro h
    have hf : fetch_music_ids env.listResp = [] := by
      by_cases h200 : env.listResp.status = 200 <;>
        simp [fetch_music_ids, h200, h]
    exact ⟨hf, by simp [main', hf, runTracks]⟩
  · intro items h200 hb hobj hnum
    have hf : fetch_music_ids env.listResp =
        List.insertionSort numLe (items.filterMap idOf) := by
      simp [fetch_music_ids, h200, hb, pyIter,
        extractIds_all_jobj items hobj, pySort_all_num _ hnum]
    refine ⟨hf, ?_, ?_⟩
    · rw [hf]
      exact List.sorted_insertionSort numLe (items.filterMap idOf)
    · rw [hf]
      exact List.perm_insertionSort numLe (items.filterMap idOf)

/-- The environment of the C9 witness: a track list with ids 3, 1, 3 and
one id-less item. -/
def envC9w : Env where
  listResp := ⟨200, some (.jarr [.jobj [("id", .jnum 3)], .jobj [],
    .jobj [("id", .jnum 1)], .jobj [("id", .jnum 3)]])⟩
  aliasApi := fun _ => ⟨404, none⟩
  embedApi := fun _ => ⟨500, none⟩

theorem c9_ids_are_sorted_id_fields_witness :
    fetch_music_ids envC9w.listResp =
      List.insertionSort numLe
        ([.jobj [("id", .jnum 3)], .jobj [], .jobj [("id", .jnum 1)],
          .jobj [("id", .jnum 3)]].filterMap idOf)
    ∧ List.Sorted numLe (fetch_music_ids envC9w.listResp)
    ∧ (fetch_music_ids envC9w.listResp).Perm
        ([.jobj [("id", .jnum 3)], .jobj [], .jobj [("id", .jnum 1)],
          .jobj [("id", .jnum 3)]].filterMap idOf) :=
  (c9_ids_are_sorted_id_fields envC9w).2.2 _ rfl rfl
    (by
      intro it hit
      simp only [List.mem_cons, List.not_mem_nil, or_false] at hit
      rcases hit with rfl | rfl | rfl | rfl <;> exact ⟨_, rfl⟩)
    rfl

theorem leBytes_length : ∀ (k x : Nat), (leBytes k x).length = k := by
  intro k
  induction k with
  | zero => intro x; rfl
  | succ n ih => intro x; simp [leBytes, ih]

theorem leBytes_lt : ∀ (k x : Nat), ∀ b ∈ leBytes k x, b < 256 := by
  intro k
  induction k with
  | zero => intro x b hb; simp [leBytes] at hb
  | succ n ih =>
    intro x b hb
    rw [leBytes] at hb
    rcases List.mem_cons.mp hb with rfl | hb'
    · exact Nat.mod_lt _ (by norm_num)
    · exact ih _ b hb'

/-- The MD5 digest always has 16 bytes. -/
theorem md5_length (m : List Nat) : (md5 m).length = 16 := by
  simp [md5, List.length_append, leBytes_length]

/-- Every MD5 digest byte is below 256. -/
theorem md5_bytes_lt (m : List Nat) : ∀ b ∈ md5 m, b < 256 := by
  intro b hb
  simp only [md5, List.mem_append] at hb
  rcases hb with ((h | h) | h) | h <;> exact leBytes_lt _ _ b h

theorem bytesToNat_lt_pow :
    ∀ bs : List Nat, (∀ b ∈ bs, b < 256) →
      bytesToNat bs < 256 ^ bs.length := by
  intro bs
  induction bs with
  | nil => intro _; simp [bytesToNat]
  | cons b rest ih =>
    intro h
    have hb : b < 256 := h b (List.mem_cons_self _ _)
    have hr := ih (fun x hx => h x (List.mem_cons_of_mem _ hx))
    simp only [bytesToNat, List.length_cons, pow_succ]
    omega

theorem bytesToNat_inj :
    ∀ bs cs : List Nat, bs.length = cs.length →
      (∀ b ∈ bs, b < 256) → (∀ b ∈ cs, b < 256) →
      bytesToNat bs = bytesToNat cs → bs = cs := by
  intro bs
  induction bs with
  | nil =>
    intro cs hlen _ _ _
    rcases cs with _ | ⟨c, cr⟩
    · rfl
    · simp at hlen
  | cons b rest ih =>
    intro cs hlen hb hc heq
    rcases cs with _ | ⟨c, crest⟩
    · simp at hlen
    have hb1 : b < 256 := hb b (List.mem_cons_self _ _)
    have hc1 : c < 256 := hc c (List.mem_cons_self _ _)
    simp only [bytesToNat] at heq
    have hbc : b = c ∧ bytesToNat rest = bytesToNat crest := by omega
    obtain ⟨rfl, heq'⟩ := hbc
    have : rest = crest := by
      refine ih crest (by simpa using hlen) ?_ ?_ heq'
      · exact fun x hx => hb x (List.mem_cons_of_mem _ hx)
      · exact fun x hx => hc x (List.mem_cons_of_mem _ hx)
    rw [this]

/-- `hexDigit` is injective on digit values. -/
theorem hexDigit_inj :
    ∀ a, a < 16 → ∀ b, b < 16 → hexDigit a = hexDigit b → a = b := by decide

/-- A hex digit is never the dash character. -/
theorem hexDigit_ne_dash : ∀ a, a < 16 → hexDigit a ≠ dashChar := by decide

theorem hexOfBytes_inj :
    ∀ bs cs : List Nat, (∀ b ∈ bs, b < 256) → (∀ b ∈ cs, b < 256) →
      hexOfBytes bs = hexOfBytes cs → bs = cs := by
  intro bs
  induction bs with
  | nil =>
    intro cs _ _ h
    rcases cs with _ | ⟨c, cr⟩
    · rfl
    · simp [hexOfBytes, hexByte] at h
  | cons b br ih =>
    intro cs hb hc h
    rcases cs with _ | ⟨c, cr⟩
    · simp [hexOfBytes, hexByte] at h
    simp only [hexOfBytes, List.flatMap_cons, hexByte, List.cons_append,
      List.nil_append, List.cons.injEq] at h
    obtain ⟨h1, h2, h3⟩ := h
    have hb1 : b < 256 := hb b (List.mem_cons_self _ _)
    have hc1 : c < 256 := hc c (List.mem_cons_self _ _)
    have e1 : b / 16 = c / 16 :=
      hexDigit_inj _ (by omega) _ (by omega) h1
    have e2 : b % 16 = c % 16 :=
      hexDigit_inj _ (by omega) _ (by omega) h2
    have hbc : b = c := by omega
    subst hbc
    have : br = cr := by
      refine ih cr ?_ ?_ h3
      · exact fun x hx => hb x (List.mem_cons_of_mem _ hx)
      · exact fun x hx => hc x (List.mem_cons_of_mem _ hx)
    rw [this]

/-- Removing the dashes recovers the hex string. -/
theorem filter_insertDashes (cs : List Char) (h : ∀ c ∈ cs, c ≠ dashChar) :
    (insertDashes cs).filter (fun c => c != dashChar) = cs := by
  have hsub : ∀ l : List Char, l ⊆ cs →
      l.filter (fun c => c != dashChar) = l := by
    intro l hl
    apply List.filter_eq_self.mpr
    intro a ha
    simpa using h a (hl ha)
  have hdrop : ∀ n : Nat, cs.drop n ⊆ cs := fun n => List.drop_subset n cs
  simp only [insertDashes, List.filter_append, List.filter_cons,
    bne_self_eq_false, Bool.false_eq_true, if_false]
  rw [hsub _ (List.take_subset _ _),
    hsub _ ((List.take_subset _ _).trans (hdrop 8)),
    hsub _ ((List.take_subset _ _).trans (hdrop 12)),
    hsub _ ((List.take_subset _ _).trans (hdrop 16)),
    hsub _ (hdrop 20)]
  have h20 : (cs.drop 16).take 4 ++ cs.drop 20 = cs.drop 16 := by
    have : cs.drop 20 = (cs.drop 16).drop 4 := by
      rw [List.drop_drop]
    rw [this, List.take_append_drop]
  have h16 : (cs.drop 12).take 4 ++ cs.drop 16 = cs.drop 12 := by
    have : cs.drop 16 = (cs.drop 12).drop 4 := by
      rw [List.drop_drop]
    rw [this, List.take_append_drop]
  have h12 : (cs.drop 8).take 4 ++ cs.drop 12 = cs.drop 8 := by
    have : cs.drop 12 = (cs.drop 8).drop 4 := by
      rw [List.drop_drop]
    rw [this, List.take_append_drop]
  rw [List.append_assoc, List.append_assoc, List.append_assoc, h20, h16, h12,
    List.take_append_drop]

/-- No digit of a hex rendering of bytes is a dash. -/
theorem hexOfBytes_ne_dash (ds : List Nat) (hds : ∀ b ∈ ds, b < 256) :
    ∀ c ∈ hexOfBytes ds, c ≠ dashChar := by
  intro c hcm
  simp only [hexOfBytes, List.mem_flatMap] at hcm
  obtain ⟨b, hbm, hcb⟩ := hcm
  have hblt : b < 256 := hds b hbm
  simp only [hexByte, List.mem_cons, List.not_mem_nil, or_false] at hcb
  rcases hcb with rfl | rfl
  · exact hexDigit_ne_dash _ (by omega)
  · exact hexDigit_ne_dash _ (by omega)

/-- The UUID rendering is injective on byte lists. -/
theorem uuidOfDigest_inj (bs cs : List Nat)
    (hb : ∀ b ∈ bs, b < 256) (hc : ∀ b ∈ cs, b < 256)
    (h : uuidOfDigest bs = uuidOfDigest cs) : bs = cs := by
  have hdata : insertDashes (hexOfBytes bs) = insertDashes (hexOfBytes cs) :=
    congrArg String.data h
  have h1 := filter_insertDashes (hexOfBytes bs) (hexOfBytes_ne_dash bs hb)
  have h2 := filter_insertDashes (hexOfBytes cs) (hexOfBytes_ne_dash cs hc)
  have hhex : hexOfBytes bs = hexOfBytes cs := by rw [← h1, ← h2, hdata]
  exact hexOfBytes_inj bs cs hb hc hhex

/-- C2 counterexample: `generate_uuid` maps infinitely many alias strings
through a 128-bit digest, so by the pigeonhole principle some pair of
distinct aliases of the same `mid` collides — the universally quantified
no-collision claim is false (no explicit colliding pair is known, but one
must exist). -/
theorem c2_counterexample_collision_exists :
    ∃ mid a1 a2 : JVal, a1 ≠ a2 ∧ generate_uuid mid a1 = generate_uuid mid a2 := by
  classical
  let al : ℕ → JVal := fun n => .jstr (String.mk (List.replicate n (Char.ofNat 97)))
  let dig : ℕ → List Nat := fun n => md5 (utf8 (rawString (.jnum 0) (al n)))
  have hpos : 0 < 256 ^ 16 := Nat.pos_pow_of_pos 16 (by norm_num)
  let f : ℕ → Fin (256 ^ 16) := fun n =>
    ⟨bytesToNat (dig n) % 256 ^ 16, Nat.mod_lt _ hpos⟩
  obtain ⟨n, m, hne, heq⟩ := Finite.exists_ne_map_eq_of_infinite f
  have hlt : ∀ k, bytesToNat (dig k) < 256 ^ 16 := by
    intro k
    have := bytesToNat_lt_pow (dig k) (md5_bytes_lt _)
    rwa [md5_length] at this
  have hveq : bytesToNat (dig n) = bytesToNat (dig m) := by
    have hv := congrArg Fin.val heq
    simp only [f] at hv
    rwa [Nat.mod_eq_of_lt (hlt n), Nat.mod_eq_of_lt (hlt m)] at hv
  have hdig : dig n = dig m := by
    refine bytesToNat_inj _ _ ?_ (md5_bytes_lt _) (md5_bytes_lt _) hveq
    rw [md5_length, md5_length]
  refine ⟨.jnum 0, al n, al m, ?_, ?_⟩
  · intro hcon
    apply hne
    have hs : String.mk (List.replicate n (Char.ofNat 97)) =
        String.mk (List.replicate m (Char.ofNat 97)) := by
      simpa [al] using hcon
    have := congrArg (fun s : String => s.data.length) hs
    simpa using this
  · show uuidOfDigest (dig n) = uuidOfDigest (dig m)
    rw [hdig]

/-- C2 (amended): for every `mid`, two aliases receive the same id exactly
when the MD5 digests of their `"\x7bmid\x7d-\x7balias\x7d"` strings
coincide; so distinct aliases get distinct ids unless their 128-bit
digests collide (which no pair in the test corpus does, but which must
happen for some pair of strings). -/
theorem c2_ids_equal_iff_digests_equal (mid a1 a2 : JVal) :
    generate_uuid mid a1 = generate_uuid mid a2 ↔
    md5 (utf8 (rawString mid a1)) = md5 (utf8 (rawString mid a2)) := by
  constructor
  · intro h
    exact uuidOfDigest_inj _ _ (md5_bytes_lt _) (md5_bytes_lt _) h
  · intro h
    simp only [generate_uuid, h]

theorem c5_get_embedding_failure_characterised_witness :
    get_embedding ⟨200, some (.jobj [("data",
      .jarr [.jobj [("embedding", .jarr [.jnum 1])]])])⟩ =
      .ok (some (.jarr [.jnum 1])) :=
  (c5_get_embedding_failure_characterised
    ⟨200, some (.jobj [("data",
      .jarr [.jobj [("embedding", .jarr [.jnum 1])]])])⟩).2
    [("data", .jarr [.jobj [("embedding", .jarr [.jnum 1])]])]
    [("embedding", .jarr [.jnum 1])] [] (.jarr [.jnum 1]) rfl rfl rfl rfl
